import Mathlib

/-!
Verification development for the `utka` command-line Asana client.

The Go source is shallowly embedded: JSON documents are modelled by `JVal`,
the lenient `encoding/json` unmarshalling into the Go structs is modelled by
explicit decoders, the HTTP layer is modelled by passing the response (or the
transport failure) as an explicit argument, and loops over successive HTTP
responses are driven by a finite script of responses.
-/

/-- A JSON document.  Numbers are restricted to integers, which covers every
value occurring in the repository's fixtures; objects keep their key order. -/
inductive JVal where
  | null : JVal
  | bool : Bool → JVal
  | num : Int → JVal
  | str : String → JVal
  | arr : List JVal → JVal
  | obj : List (String × JVal) → JVal
deriving Repr

mutual

/-- Structural equality of JSON documents (deep equality, as used by the
expression library's `==`). -/
def JVal.beq : JVal → JVal → Bool
  | .null, .null => true
  | .bool a, .bool b => a == b
  | .num a, .num b => a == b
  | .str a, .str b => a == b
  | .arr xs, .arr ys => JVal.beqArr xs ys
  | .obj fs, .obj gs => JVal.beqObj fs gs
  | _, _ => false

/-- Elementwise equality of JSON arrays. -/
def JVal.beqArr : List JVal → List JVal → Bool
  | [], [] => true
  | x :: xs, y :: ys => JVal.beq x y && JVal.beqArr xs ys
  | _, _ => false

/-- Elementwise equality of JSON object fields. -/
def JVal.beqObj : List (String × JVal) → List (String × JVal) → Bool
  | [], [] => true
  | (k, v) :: fs, (l, w) :: gs => k == l && JVal.beq v w && JVal.beqObj fs gs
  | _, _ => false

end

/-- Look a key up among the fields of a JSON object. -/
def lookupField (fs : List (String × JVal)) (k : String) : Option JVal :=
  match fs.find? (fun p => p.1 == k) with
  | some p => some p.2
  | none => none

/-- Go `json.Unmarshal` into a `string` struct field: a missing key or JSON
`null` leaves the zero value `""`; a JSON string is taken verbatim; any other
JSON value is a type error. -/
def getStrField (fs : List (String × JVal)) (k : String) : Option String :=
  match lookupField fs k with
  | none => some ""
  | some .null => some ""
  | some (.str s) => some s
  | some _ => none

/-- Go `json.Unmarshal` into a `bool` struct field. -/
def getBoolField (fs : List (String × JVal)) (k : String) : Option Bool :=
  match lookupField fs k with
  | none => some false
  | some .null => some false
  | some (.bool b) => some b
  | some _ => none

/-- Go `json.Unmarshal` into an `interface\x7b\x7d` struct field: it cannot
fail; a missing key or JSON `null` yields the nil interface. -/
def getAnyField (fs : List (String × JVal)) (k : String) : Option JVal :=
  match lookupField fs k with
  | none => none
  | some .null => none
  | some v => some v

/-- Go `json.Unmarshal` into a pointer-to-struct field: missing or `null`
yields a nil pointer, otherwise the pointee is decoded. -/
def getPtrField {β : Type} (fs : List (String × JVal)) (k : String)
    (dec : JVal → Option β) : Option (Option β) :=
  match lookupField fs k with
  | none => some none
  | some .null => some none
  | some v => (dec v).map some

/-- `events.EventUser` from `src/events/events.go`. -/
structure EventUser where
  gid : String
  resourceType : String
  name : String
deriving Repr, DecidableEq

/-- `events.EventResource` from `src/events/events.go`. -/
structure EventResource where
  gid : String
  resourceType : String
  name : String
  resourceSubtype : String
deriving Repr, DecidableEq

/-- `events.EventParent` from `src/events/events.go`. -/
structure EventParent where
  gid : String
  resourceType : String
  name : String
deriving Repr, DecidableEq

/-- `events.EventChange` from `src/events/events.go`; the four loosely typed
value slots (`interface\x7b\x7d` in Go) hold an arbitrary JSON value, with
`none` standing for the nil interface. -/
structure EventChange where
  field : String
  action : String
  oldValue : Option JVal
  newValue : Option JVal
  addedValue : Option JVal
  removedValue : Option JVal
deriving Repr

/-- `events.Event` from `src/events/events.go`. -/
structure Event where
  user : Option EventUser
  createdAt : String
  action : String
  resource : Option EventResource
  parent : Option EventParent
  change : Option EventChange
  type : String
deriving Repr

/-- `events.NextPage` from `src/events/events.go`; the `tasks` and `projects`
packages repeat the identical struct, so it is shared here. -/
structure NextPage where
  offset : String
  path : String
  uri : String
deriving Repr, DecidableEq

/-- `events.EventsResponse` from `src/events/events.go`. -/
structure EventsResponse where
  data : List Event
  sync : String
  hasMore : Bool
  nextPage : Option NextPage
deriving Repr

/-- Decode a JSON value into `EventUser`, as Go's `json.Unmarshal` would. -/
def decodeEventUser : JVal → Option EventUser
  | .null => some ⟨"", "", ""⟩
  | .obj g => do
    let gid ← getStrField g "gid"
    let rt ← getStrField g "resource_type"
    let name ← getStrField g "name"
    some ⟨gid, rt, name⟩
  | _ => none

/-- Decode a JSON value into `EventResource`. -/
def decodeEventResource : JVal → Option EventResource
  | .null => some ⟨"", "", "", ""⟩
  | .obj g => do
    let gid ← getStrField g "gid"
    let rt ← getStrField g "resource_type"
    let name ← getStrField g "name"
    let sub ← getStrField g "resource_subtype"
    some ⟨gid, rt, name, sub⟩
  | _ => none

/-- Decode a JSON value into `EventParent`. -/
def decodeEventParent : JVal → Option EventParent
  | .null => some ⟨"", "", ""⟩
  | .obj g => do
    let gid ← getStrField g "gid"
    let rt ← getStrField g "resource_type"
    let name ← getStrField g "name"
    some ⟨gid, rt, name⟩
  | _ => none

/-- Decode a JSON value into `EventChange`. -/
def decodeEventChange : JVal → Option EventChange
  | .null => some ⟨"", "", none, none, none, none⟩
  | .obj g => do
    let field ← getStrField g "field"
    let action ← getStrField g "action"
    some ⟨field, action, getAnyField g "old_value", getAnyField g "new_value",
          getAnyField g "added_value", getAnyField g "removed_value"⟩
  | _ => none

/-- Decode a JSON value into `Event`. -/
def decodeEvent : JVal → Option Event
  | .null => some ⟨none, "", "", none, none, none, ""⟩
  | .obj g => do
    let user ← getPtrField g "user" decodeEventUser
    let createdAt ← getStrField g "created_at"
    let action ← getStrField g "action"
    let resource ← getPtrField g "resource" decodeEventResource
    let parent ← getPtrField g "parent" decodeEventParent
    let change ← getPtrField g "change" decodeEventChange
    let ty ← getStrField g "type"
    some ⟨user, createdAt, action, resource, parent, change, ty⟩
  | _ => none

/-- Decode a JSON value into `NextPage`. -/
def decodeNextPage : JVal → Option NextPage
  | .null => some ⟨"", "", ""⟩
  | .obj g => do
    let off ← getStrField g "offset"
    let path ← getStrField g "path"
    let uri ← getStrField g "uri"
    some ⟨off, path, uri⟩
  | _ => none

/-- Decode the `data` array of an events response (`[]Event` in Go: a missing
or `null` array is the empty slice). -/
def decodeEventList : JVal → Option (List Event)
  | .null => some []
  | .arr xs => xs.mapM decodeEvent
  | _ => none

/-- Decode a JSON value into `EventsResponse`, mirroring
`json.Unmarshal(respBody, &response)` in `src/events/events.go`. -/
def decodeEventsResponse : JVal → Option EventsResponse
  | .null => some ⟨[], "", false, none⟩
  | .obj g => do
    let data ← match lookupField g "data" with
      | none => some []
      | some v => decodeEventList v
    let sync ← getStrField g "sync"
    let hasMore ← getBoolField g "has_more"
    let nextPage ← getPtrField g "next_page" decodeNextPage
    some ⟨data, sync, hasMore, nextPage⟩
  | _ => none

/-- An HTTP response body: its raw bytes together with the result of parsing
it as JSON (`none` when the bytes are not valid JSON). -/
structure Body where
  raw : String
  json : Option JVal
deriving Repr

/-- An HTTP response as seen by the client: status code and body. -/
structure HttpResp where
  status : Nat
  body : Body
deriving Repr

/-- Go unmarshalling of a body into the anonymous error envelope struct
`\x7b Errors []struct \x7b Message string \x7d \x7d` of
`client.doRequest` (`src/unnamed/part_000`) and `events.InitializeSync`:
yields the list of `message` strings, or `none` when unmarshalling fails. -/
def parseErrorEnvelope : JVal → Option (List String)
  | .null => some []
  | .obj g =>
    match lookupField g "errors" with
    | none => some []
    | some .null => some []
    | some (.arr xs) =>
      xs.mapM fun x =>
        match x with
        | .null => some ""
        | .obj e => getStrField e "message"
        | _ => none
    | some _ => none
  | _ => none

/-- Go `strings.TrimSpace`: the string with leading and trailing whitespace
removed. -/
def trimSpace (s : String) : String :=
  ⟨((s.data.dropWhile Char.isWhitespace).reverse.dropWhile
      Char.isWhitespace).reverse⟩

/-- Is an `Except` value an error? -/
def isErr {ε α : Type} : Except ε α → Bool
  | .error _ => true
  | .ok _ => false

/-- `client.doRequest` from `src/unnamed/part_000`, given the outcome of the
HTTP round trip (`.error e` when `httpClient.Do` fails): on a status of 400 or
above it builds an `API error` message from the error envelope, falling back
to the trimmed raw body; otherwise it returns the body. -/
def doRequest (r : Except String HttpResp) : Except String Body :=
  match r with
  | .error e => .error ("request failed: " ++ e)
  | .ok resp =>
    if 400 ≤ resp.status then
      match resp.body.json.bind parseErrorEnvelope with
      | some (m :: _) =>
        .error ("API error (" ++ toString resp.status ++ "): " ++ m)
      | _ =>
        .error ("API error (" ++ toString resp.status ++ "): " ++ trimSpace resp.body.raw)
    else
      .ok resp.body

/-- `events.EventManager.GetByResource` from `src/events/events.go`, given the
outcome of the HTTP round trip for its single `client.Get` call: one page
fetch, the body decoded into an `EventsResponse`. -/
def GetByResource (r : Except String HttpResp) : Except String EventsResponse :=
  match doRequest r with
  | .error e => .error ("failed to get events: " ++ e)
  | .ok b =>
    match b.json.bind decodeEventsResponse with
    | none => .error "failed to parse response"
    | some resp => .ok resp

/-- `events.EventManager.InitializeSync` from `src/events/events.go`, given
the outcome of its raw HTTP round trip: the body is decoded first; a 412
status then returns the decoded page (its `sync` is the refreshed cursor),
any other status of 400 or above returns an `API error`, and the fallback
error text is the untrimmed raw body (unlike `doRequest`). -/
def InitializeSync (r : Except String HttpResp) : Except String EventsResponse :=
  match r with
  | .error e => .error ("request failed: " ++ e)
  | .ok resp =>
    match resp.body.json.bind decodeEventsResponse with
    | none => .error "failed to parse response"
    | some page =>
      if resp.status = 412 then
        .ok page
      else if 400 ≤ resp.status then
        match resp.body.json.bind parseErrorEnvelope with
        | some (m :: _) =>
          .error ("API error (" ++ toString resp.status ++ "): " ++ m)
        | _ =>
          .error ("API error (" ++ toString resp.status ++ "): " ++ resp.body.raw)
      else
        .ok page

/-- The `events get` operation (`eventsGetCmd` in `src/cmd/events.go`) run
against a script of successive HTTP responses: the command performs the single
call `eventManager.GetByResource(resource, syncToken)`, consuming exactly one
response.  Returns the result, the unconsumed script, and the cursor passed to
each fetch. -/
def getEventsRun (sync : String) (script : List (Except String HttpResp)) :
    Except String EventsResponse × List (Except String HttpResp) × List String :=
  match script with
  | [] => (.error "failed to get events: request failed: no response", [], [sync])
  | r :: rest => (GetByResource r, rest, [sync])

/-- Modelled from the spec: `drainAll` (spec §4.3 and §6), absent from the
source tree — only `src/README.md` and the repository's tests describe it.
Given a cursor, it repeatedly performs the single-page fetch, concatenating
the pages' events, advancing the cursor to each page's `sync`, and stopping
when a page reports `has_more = false`.  Returns the result, the unconsumed
script, and the cursor passed to each fetch. -/
def drainAll (sync : String) :
    List (Except String HttpResp) →
    Except String (List Event × String) × List (Except String HttpResp) × List String
  | [] => (.error "failed to get events: request failed: no response", [], [sync])
  | r :: rest =>
    match GetByResource r with
    | .error e => (.error e, rest, [sync])
    | .ok page =>
      if page.hasMore then
        match drainAll page.sync rest with
        | (res, rem, trace) =>
          (res.map fun pr => (page.data ++ pr.1, pr.2), rem, sync :: trace)
      else
        (.ok (page.data, page.sync), rest, [sync])

/-- The output of a run of the polling loop: events emitted on the events
channel, errors emitted on the errors channel, and the cursor used by each
fetch cycle, each in order. -/
structure PollOut where
  events : List Event
  errors : List String
  cursors : List String
deriving Repr

/-- One cycle of `events.EventManager.Poll` from `src/events/events.go`:
fetch with the current cursor; on failure send the error and keep the cursor;
on success send every event of the page in order, then adopt the page's
`sync` as the cursor when it is non-empty. -/
def pollCycle (sync : String) (r : Except String HttpResp) :
    String × List Event × List String :=
  match GetByResource r with
  | .error e => (sync, [], [e])
  | .ok page =>
    (if page.sync ≠ "" then page.sync else sync, page.data, [])

/-- The polling loop of `events.EventManager.Poll` run against a script of
successive HTTP responses, one per cycle; the loop itself never exits, so a
run processes every scripted cycle. -/
def pollRun (sync : String) : List (Except String HttpResp) → PollOut
  | [] => ⟨[], [], []⟩
  | r :: rest =>
    let c := pollCycle sync r
    let out := pollRun c.1 rest
    ⟨c.2.1 ++ out.events, c.2.2 ++ out.errors, sync :: out.cursors⟩

namespace Tasks

/-- `tasks.Task` from `src/tasks/tasks.go`, restricted to the fields that any
operation of the repository inspects (`Completed` drives the client-side
post-filter of the task listings; the Go struct's many further payload fields
are carried through untouched and do not influence any list logic).  It lives
in a `Tasks` namespace because Lean already has a core type named `Task`. -/
structure Task where
  gid : String
  name : String
  completed : Bool
deriving Repr, DecidableEq

end Tasks

/-- `tasks.TasksResponse` from `src/tasks/tasks.go`. -/
structure TasksResponse where
  data : List Tasks.Task
  nextPage : Option NextPage
deriving Repr, DecidableEq

/-- `projects.Project` from `src/projects/projects.go`, restricted to the
fields inspected by the repository's list logic (none are: projects are
passed through verbatim). -/
structure Project where
  gid : String
  name : String
  archived : Bool
deriving Repr, DecidableEq

/-- `projects.ProjectsResponse` from `src/projects/projects.go`. -/
structure ProjectsResponse where
  data : List Project
  nextPage : Option NextPage
deriving Repr, DecidableEq

/-- `url.Values.Set`: replace the value of a key, or add it when absent. -/
def paramsSet (ps : List (String × String)) (k v : String) :
    List (String × String) :=
  if ps.any (fun p => p.1 == k) then
    ps.map (fun p => if p.1 == k then (k, v) else p)
  else
    ps ++ [(k, v)]

/-- The query parameters built by `tasks.TaskManager.ListByProject`
(`src/tasks/tasks.go`): `limit` is added exactly when positive. -/
def listByProjectParams (projectGID : String) (limit : Int) :
    List (String × String) :=
  [("project", projectGID), ("completed_since", "now")]
    ++ (if 0 < limit then [("limit", toString limit)] else [])
    ++ [("opt_fields", "name,completed,completed_at,completed_by.name,created_at,due_on,due_at,notes,assignee.name,assignee_section.name,tags.name,tags.color,num_subtasks,parent.name,memberships.section.name,resource_subtype,start_on")]

/-- The query parameters built by `tasks.TaskManager.ListByAssignee`. -/
def listByAssigneeParams (assigneeGID workspaceGID : String) (limit : Int) :
    List (String × String) :=
  [("assignee", assigneeGID), ("workspace", workspaceGID),
   ("completed_since", "now")]
    ++ (if 0 < limit then [("limit", toString limit)] else [])
    ++ [("opt_fields", "name,completed,completed_at,created_at,due_on,due_at,notes,projects.name,assignee_section.name,tags.name,num_subtasks")]

/-- The query parameters built by `tasks.TaskManager.ListBySection`. -/
def listBySectionParams (sectionGID : String) (limit : Int) :
    List (String × String) :=
  [("section", sectionGID), ("completed_since", "now")]
    ++ (if 0 < limit then [("limit", toString limit)] else [])
    ++ [("opt_fields", "name,completed,completed_at,created_at,due_on,due_at,notes,assignee.name,tags.name,num_subtasks")]

/-- The query parameters built by `projects.ProjectManager.ListByWorkspace`
(`src/projects/projects.go`). -/
def listByWorkspaceParams (workspaceGID : String) (archived : Bool)
    (limit : Int) : List (String × String) :=
  [("workspace", workspaceGID), ("archived", toString archived)]
    ++ (if 0 < limit then [("limit", toString limit)] else [])
    ++ [("opt_fields", "name,archived,created_at,modified_at,due_date,start_on,notes,public,color,owner.name,current_status.title,current_status.color")]

/-- The pagination loop shared verbatim by `ListByProject`, `ListByAssignee`
and `ListBySection` in `src/tasks/tasks.go`, run against a script of decoded
transport outcomes (`.error` covering both a transport failure and a decode
failure).  Each page's tasks pass the `completed || !task.Completed` filter
before accumulation; the loop ends when a response has no `next_page` or an
empty offset, and otherwise does `params.Set("offset", ...)` for the next
call.  Returns the result together with the query parameters of each call. -/
def tasksLoop (completed : Bool) (params : List (String × String)) :
    List (Except String TasksResponse) →
    Except String (List Tasks.Task) × List (List (String × String))
  | [] => (.error "failed to list tasks: no response", [params])
  | .error e :: _ => (.error ("failed to list tasks: " ++ e), [params])
  | .ok resp :: rest =>
    let kept := resp.data.filter (fun t => completed || !t.completed)
    match resp.nextPage with
    | none => (.ok kept, [params])
    | some np =>
      if np.offset = "" then
        (.ok kept, [params])
      else
        let out := tasksLoop completed (paramsSet params "offset" np.offset) rest
        (out.1.map (fun ts => kept ++ ts), params :: out.2)

/-- The pagination loop of `projects.ProjectManager.ListByWorkspace`
(`src/projects/projects.go`): identical to the task loop but accumulating
every fetched project unfiltered. -/
def projectsLoop (params : List (String × String)) :
    List (Except String ProjectsResponse) →
    Except String (List Project) × List (List (String × String))
  | [] => (.error "failed to list projects: no response", [params])
  | .error e :: _ => (.error ("failed to list projects: " ++ e), [params])
  | .ok resp :: rest =>
    match resp.nextPage with
    | none => (.ok resp.data, [params])
    | some np =>
      if np.offset = "" then
        (.ok resp.data, [params])
      else
        let out := projectsLoop (paramsSet params "offset" np.offset) rest
        (out.1.map (fun ps => resp.data ++ ps), params :: out.2)

/-- `tasks.TaskManager.ListByProject` over a response script. -/
def ListByProject (projectGID : String) (completed : Bool) (limit : Int)
    (script : List (Except String TasksResponse)) :
    Except String (List Tasks.Task) × List (List (String × String)) :=
  tasksLoop completed (listByProjectParams projectGID limit) script

/-- `tasks.TaskManager.ListByAssignee` over a response script. -/
def ListByAssignee (assigneeGID workspaceGID : String) (completed : Bool)
    (limit : Int) (script : List (Except String TasksResponse)) :
    Except String (List Tasks.Task) × List (List (String × String)) :=
  tasksLoop completed (listByAssigneeParams assigneeGID workspaceGID limit) script

/-- `tasks.TaskManager.ListBySection` over a response script. -/
def ListBySection (sectionGID : String) (completed : Bool) (limit : Int)
    (script : List (Except String TasksResponse)) :
    Except String (List Tasks.Task) × List (List (String × String)) :=
  tasksLoop completed (listBySectionParams sectionGID limit) script

/-- `projects.ProjectManager.ListByWorkspace` over a response script. -/
def ListByWorkspace (workspaceGID : String) (archived : Bool) (limit : Int)
    (script : List (Except String ProjectsResponse)) :
    Except String (List Project) × List (List (String × String)) :=
  projectsLoop (listByWorkspaceParams workspaceGID archived limit) script

/-- Spec-side description of pagination: the pages a sequential listing
consumes — every page up to and including the first one whose `next_page` is
absent or carries an empty offset. -/
def specConsumedTasks : List TasksResponse → List TasksResponse
  | [] => []
  | p :: rest =>
    match p.nextPage with
    | none => [p]
    | some np => if np.offset = "" then [p] else p :: specConsumedTasks rest

/-- Spec-side description: does the script contain a page that ends the
listing (no `next_page`, or an empty offset)? -/
def specTasksTerminate : List TasksResponse → Bool
  | [] => false
  | p :: rest =>
    match p.nextPage with
    | none => true
    | some np => if np.offset = "" then true else specTasksTerminate rest

/-- Spec-side description of the query parameters of each call of a
sequential listing: the first call uses the initial parameters, each later
call sets `offset` to the previous response's `next_page.offset`. -/
def specTasksParamsTrace (params : List (String × String)) :
    List TasksResponse → List (List (String × String))
  | [] => []
  | p :: rest =>
    params ::
      match p.nextPage with
      | none => []
      | some np =>
        if np.offset = "" then []
        else specTasksParamsTrace (paramsSet params "offset" np.offset) rest

/-- Spec-side consumed pages, project listings. -/
def specConsumedProjects : List ProjectsResponse → List ProjectsResponse
  | [] => []
  | p :: rest =>
    match p.nextPage with
    | none => [p]
    | some np => if np.offset = "" then [p] else p :: specConsumedProjects rest

/-- Spec-side termination, project listings. -/
def specProjectsTerminate : List ProjectsResponse → Bool
  | [] => false
  | p :: rest =>
    match p.nextPage with
    | none => true
    | some np => if np.offset = "" then true else specProjectsTerminate rest

/-- Spec-side per-call parameters, project listings. -/
def specProjectsParamsTrace (params : List (String × String)) :
    List ProjectsResponse → List (List (String × String))
  | [] => []
  | p :: rest =>
    params ::
      match p.nextPage with
      | none => []
      | some np =>
        if np.offset = "" then []
        else specProjectsParamsTrace (paramsSet params "offset" np.offset) rest

/-- Go `json.Marshal` of a string field tagged `omitempty`: omitted when the
string is empty. -/
def marshalStrOpt (k s : String) : List (String × JVal) :=
  if s = "" then [] else [(k, .str s)]

/-- Go `json.Marshal` of an `interface\x7b\x7d` field tagged `omitempty`:
omitted when the interface is nil. -/
def marshalAnyOpt (k : String) : Option JVal → List (String × JVal)
  | none => []
  | some v => [(k, v)]

/-- Go `json.Marshal` of `events.EventUser`: `gid` and `resource_type` are
unconditional, `name` is `omitempty`. -/
def marshalEventUser (u : EventUser) : JVal :=
  .obj ([("gid", .str u.gid), ("resource_type", .str u.resourceType)]
        ++ marshalStrOpt "name" u.name)

/-- Go `json.Marshal` of `events.EventResource`. -/
def marshalEventResource (r : EventResource) : JVal :=
  .obj ([("gid", .str r.gid), ("resource_type", .str r.resourceType)]
        ++ marshalStrOpt "name" r.name
        ++ marshalStrOpt "resource_subtype" r.resourceSubtype)

/-- Go `json.Marshal` of `events.EventParent`. -/
def marshalEventParent (p : EventParent) : JVal :=
  .obj ([("gid", .str p.gid), ("resource_type", .str p.resourceType)]
        ++ marshalStrOpt "name" p.name)

/-- Go `json.Marshal` of `events.EventChange` (every field `omitempty`). -/
def marshalEventChange (c : EventChange) : JVal :=
  .obj (marshalStrOpt "field" c.field
        ++ marshalStrOpt "action" c.action
        ++ marshalAnyOpt "old_value" c.oldValue
        ++ marshalAnyOpt "new_value" c.newValue
        ++ marshalAnyOpt "added_value" c.addedValue
        ++ marshalAnyOpt "removed_value" c.removedValue)

/-- Go `json.Marshal` of a pointer field tagged `omitempty`. -/
def marshalPtrOpt {β : Type} (k : String) (m : β → JVal) :
    Option β → List (String × JVal)
  | none => []
  | some b => [(k, m b)]

/-- Go `json.Marshal` of `events.Event` (every field `omitempty`): the map the
filter of `eventsGetCmd` (`src/cmd/events.go`) obtains by marshalling the
event and unmarshalling it into `map[string]interface\x7b\x7d`. -/
def marshalEvent (e : Event) : JVal :=
  .obj (marshalPtrOpt "user" marshalEventUser e.user
        ++ marshalStrOpt "created_at" e.createdAt
        ++ marshalStrOpt "action" e.action
        ++ marshalPtrOpt "resource" marshalEventResource e.resource
        ++ marshalPtrOpt "parent" marshalEventParent e.parent
        ++ marshalPtrOpt "change" marshalEventChange e.change
        ++ marshalStrOpt "type" e.type)

/-- Modelled from the spec: the compiled filter expression of the third-party
expression library used by `eventsGetCmd` — a boolean expression over
dot-separated field paths, literals, equality and logical and/or (spec §4.5
and §9: only path access with graceful absence, equality and and/or are
required). -/
inductive FExpr where
  | path : List String → FExpr
  | lit : JVal → FExpr
  | eq : FExpr → FExpr → FExpr
  | and : FExpr → FExpr → FExpr
  | or : FExpr → FExpr → FExpr

/-- Modelled from the spec: field-path traversal of the expression evaluator;
stepping into an absent field, or into a non-object, raises an evaluation
error (spec §4.5: "path traversal into an absent field" raises). -/
def pathEval : JVal → List String → Except String JVal
  | v, [] => .ok v
  | .obj fs, k :: ks =>
    match lookupField fs k with
    | some v => pathEval v ks
    | none => .error ("absent field " ++ k)
  | _, _ :: _ => .error "not an object"

/-- Modelled from the spec: evaluation of a compiled filter expression in an
environment binding the free variables; `==` is deep equality, and/or require
boolean operands and short-circuit. -/
def FExpr.eval (env : JVal) : FExpr → Except String JVal
  | .path ps => pathEval env ps
  | .lit v => .ok v
  | .eq a b => do
    let x ← FExpr.eval env a
    let y ← FExpr.eval env b
    .ok (.bool (JVal.beq x y))
  | .and a b =>
    match FExpr.eval env a with
    | .error e => .error e
    | .ok (.bool false) => .ok (.bool false)
    | .ok (.bool true) =>
      match FExpr.eval env b with
      | .error e => .error e
      | .ok (.bool y) => .ok (.bool y)
      | .ok _ => .error "non-boolean operand"
    | .ok _ => .error "non-boolean operand"
  | .or a b =>
    match FExpr.eval env a with
    | .error e => .error e
    | .ok (.bool true) => .ok (.bool true)
    | .ok (.bool false) =>
      match FExpr.eval env b with
      | .error e => .error e
      | .ok (.bool y) => .ok (.bool y)
      | .ok _ => .error "non-boolean operand"
    | .ok _ => .error "non-boolean operand"

/-- Evaluate a compiled filter on one event, as the filter loop of
`eventsGetCmd` does: the event is marshalled to a generic map and bound to
the variable `event`. -/
def evalOnEvent (prog : FExpr) (e : Event) : Except String JVal :=
  prog.eval (.obj [("event", marshalEvent e)]) 

/-- The filter loop of `eventsGetCmd` in `src/cmd/events.go`: an event whose
evaluation raises is skipped; an event is kept exactly when evaluation
returns `true`. -/
def filterEvents (prog : FExpr) (events : List Event) : List Event :=
  events.filter fun e =>
    match evalOnEvent prog e with
    | .ok v => JVal.beq v (.bool true)
    | .error _ => false

theorem pollRun_cursors_length (sync : String)
    (s : List (Except String HttpResp)) :
    (pollRun sync s).cursors.length = s.length := by
  induction s generalizing sync with
  | nil => rfl
  | cons r rest ih => simp [pollRun, ih]

theorem beq_bool_true_iff (v : JVal) :
    JVal.beq v (.bool true) = true ↔ v = .bool true := by
  cases v <;> simp [JVal.beq]

theorem tasksLoop_ok_eq (c : Bool) (ps : List (String × String))
    (script : List TasksResponse) (h : specTasksTerminate script = true) :
    tasksLoop c ps (script.map Except.ok) =
      (.ok (((specConsumedTasks script).map TasksResponse.data).flatten.filter
              (fun t => c || !t.completed)),
       specTasksParamsTrace ps script) := by
  induction script generalizing ps with
  | nil => simp [specTasksTerminate] at h
  | cons p rest ih =>
    cases hnp : p.nextPage with
    | none =>
      simp [tasksLoop, specConsumedTasks, specTasksParamsTrace, hnp]
    | some np =>
      by_cases hoff : np.offset = ""
      · simp [tasksLoop, specConsumedTasks, specTasksParamsTrace, hnp, hoff]
      · have hterm : specTasksTerminate rest = true := by
          simpa [specTasksTerminate, hnp, hoff] using h
        simp [tasksLoop, specConsumedTasks, specTasksParamsTrace, hnp, hoff,
              ih _ hterm, List.filter_append, Except.map]

theorem projectsLoop_ok_eq (ps : List (String × String))
    (script : List ProjectsResponse) (h : specProjectsTerminate script = true) :
    projectsLoop ps (script.map Except.ok) =
      (.ok ((specConsumedProjects script).map ProjectsResponse.data).flatten,
       specProjectsParamsTrace ps script) := by
  induction script generalizing ps with
  | nil => simp [specProjectsTerminate] at h
  | cons p rest ih =>
    cases hnp : p.nextPage with
    | none =>
      simp [projectsLoop, specConsumedProjects, specProjectsParamsTrace, hnp]
    | some np =>
      by_cases hoff : np.offset = ""
      · simp [projectsLoop, specConsumedProjects, specProjectsParamsTrace, hnp,
              hoff]
      · have hterm : specProjectsTerminate rest = true := by
          simpa [specProjectsTerminate, hnp, hoff] using h
        simp [projectsLoop, specConsumedProjects, specProjectsParamsTrace, hnp,
              hoff, ih _ hterm, Except.map]

theorem tasksLoop_fst_params (c : Bool) (ps ps' : List (String × String))
    (s : List (Except String TasksResponse)) :
    (tasksLoop c ps s).1 = (tasksLoop c ps' s).1 := by
  induction s generalizing ps ps' with
  | nil => rfl
  | cons r rest ih =>
    cases r with
    | error e => rfl
    | ok resp =>
      cases hnp : resp.nextPage with
      | none => simp [tasksLoop, hnp]
      | some np =>
        by_cases hoff : np.offset = ""
        · simp [tasksLoop, hnp, hoff]
        · simp [tasksLoop, hnp, hoff,
                ih (paramsSet ps "offset" np.offset)
                   (paramsSet ps' "offset" np.offset)]

theorem projectsLoop_fst_params (ps ps' : List (String × String))
    (s : List (Except String ProjectsResponse)) :
    (projectsLoop ps s).1 = (projectsLoop ps' s).1 := by
  induction s generalizing ps ps' with
  | nil => rfl
  | cons r rest ih =>
    cases r with
    | error e => rfl
    | ok resp =>
      cases hnp : resp.nextPage with
      | none => simp [projectsLoop, hnp]
      | some np =>
        by_cases hoff : np.offset = ""
        · simp [projectsLoop, hnp, hoff]
        · simp [projectsLoop, hnp, hoff,
                ih (paramsSet ps "offset" np.offset)
                   (paramsSet ps' "offset" np.offset)]

/-- The event of the repository test's page `\x7b"action":"changed","type":"task"\x7d`. -/
def eventChangedTask : Event := ⟨none, "", "changed", none, none, none, "task"⟩

/-- The event of the repository test's page `\x7b"action":"added","type":"task"\x7d`. -/
def eventAddedTask : Event := ⟨none, "", "added", none, none, none, "task"⟩

/-- The event of the repository test's page `\x7b"action":"removed","type":"task"\x7d`. -/
def eventRemovedTask : Event := ⟨none, "", "removed", none, none, none, "task"⟩

/-- A scripted 200 events-page response with one event, as in the repository's
multi-page test. -/
def eventsPageResp (action sync : String) (more : Bool) : HttpResp :=
  ⟨200,
   ⟨"\x7b\"data\":[\x7b\"action\":\"" ++ action ++ "\",\"type\":\"task\"\x7d],\"sync\":\""
      ++ sync ++ "\",\"has_more\":" ++ (if more then "true" else "false") ++ "\x7d",
    some (.obj [("data", .arr [.obj [("action", .str action), ("type", .str "task")]]),
                ("sync", .str sync), ("has_more", .bool more)])⟩⟩

/-- The three-page response script of the repository's own
`TestGetByResource` case "multiple pages of events": pages 1 and 2 report
`has_more = true`, page 3 ends the stream. -/
def eventsScript3 : List (Except String HttpResp) :=
  [.ok (eventsPageResp "changed" "token1" true),
   .ok (eventsPageResp "added" "token2" true),
   .ok (eventsPageResp "removed" "token3" false)]

/-- A 412 response whose body still parses as an event page carrying a fresh
sync token (the repository test's "412 error with sync token" case). -/
def resp412 : HttpResp :=
  ⟨412,
   ⟨"\x7b\"data\":[],\"sync\":\"new_sync_token\"\x7d",
    some (.obj [("data", .arr []), ("sync", .str "new_sync_token")])⟩⟩

/-- The event page decoded from the body of `resp412`. -/
def page412 : EventsResponse := ⟨[], "new_sync_token", false, none⟩

/-- A 400 response carrying the standard error envelope (the repository
test's "API error" case). -/
def resp400 : HttpResp :=
  ⟨400,
   ⟨"\x7b\"errors\":[\x7b\"message\":\"Bad request\"\x7d]\x7d",
    some (.obj [("errors", .arr [.obj [("message", .str "Bad request")]])])⟩⟩

/-- A 500 response whose body is not valid JSON at all. -/
def respPlain500 : HttpResp := ⟨500, ⟨" server exploded ", none⟩⟩

/-- A scripted failing fetch for the polling loop: a 500 with an envelope. -/
def pollErrResp : Except String HttpResp :=
  .ok ⟨500,
       ⟨"\x7b\"errors\":[\x7b\"message\":\"Server error\"\x7d]\x7d",
        some (.obj [("errors", .arr [.obj [("message", .str "Server error")]])])⟩⟩

/-- The error `GetByResource` produces for `pollErrResp`. -/
def pollErrText : String := "failed to get events: API error (500): Server error"

/-- An event carrying only an action tag. -/
def mkActionEvent (a : String) : Event := ⟨none, "", a, none, none, none, ""⟩

/-- Poll cycle A: events e1, e2 and sync `syncA`. -/
def pollRespA : Except String HttpResp :=
  .ok ⟨200,
       ⟨"\x7b\"data\":[\x7b\"action\":\"e1\"\x7d,\x7b\"action\":\"e2\"\x7d],\"sync\":\"syncA\"\x7d",
        some (.obj [("data", .arr [.obj [("action", .str "e1")],
                                   .obj [("action", .str "e2")]]),
                    ("sync", .str "syncA")])⟩⟩

/-- The page decoded from `pollRespA`. -/
def pollPageA : EventsResponse :=
  ⟨[mkActionEvent "e1", mkActionEvent "e2"], "syncA", false, none⟩

/-- Poll cycle B: event e3 and sync `syncB`. -/
def pollRespB : Except String HttpResp :=
  .ok ⟨200,
       ⟨"\x7b\"data\":[\x7b\"action\":\"e3\"\x7d],\"sync\":\"syncB\"\x7d",
        some (.obj [("data", .arr [.obj [("action", .str "e3")]]),
                    ("sync", .str "syncB")])⟩⟩

/-- A completed task, dropped by the listings' post-filter when the
`completed` argument is false. -/
def doneTask : Tasks.Task := ⟨"t1", "Done", true⟩

/-- An uncompleted task. -/
def openTask : Tasks.Task := ⟨"t2", "Open", false⟩

/-- First task page: one completed task, continuation offset `off1`. -/
def taskPage1 : TasksResponse := ⟨[doneTask], some ⟨"off1", "", ""⟩⟩

/-- Second task page: one open task, no continuation. -/
def taskPage2 : TasksResponse := ⟨[openTask], none⟩

/-- A project fixture. -/
def projA : Project := ⟨"p1", "Alpha", false⟩

/-- A second project fixture. -/
def projB : Project := ⟨"p2", "Beta", false⟩

/-- First project page with a continuation offset. -/
def projPage1 : ProjectsResponse := ⟨[projA], some ⟨"poff", "", ""⟩⟩

/-- Second project page ending the listing. -/
def projPage2 : ProjectsResponse := ⟨[projB], none⟩

/-- The compiled filter `event.change.field == "name"` of the claimed
filtering example. -/
def changeFieldFilter : FExpr :=
  .eq (.path ["event", "change", "field"]) (.lit (.str "name"))

/-- The example event `\x7baction:"changed"\x7d` without a `change` field. -/
def evActionOnly : Event := ⟨none, "", "changed", none, none, none, ""⟩

/-- The example event `\x7baction:"changed", change:\x7bfield:"name"\x7d\x7d`. -/
def evWithChange : Event :=
  ⟨none, "", "changed", none, none, some ⟨"name", "", none, none, none, none⟩, ""⟩

/-- C1: the "get events" operation is claimed to fetch repeatedly until a
page reports no continuation, issuing N calls for N pages and returning the
concatenation of all pages plus the final cursor.  The code (`eventsGetCmd`
calling `GetByResource` once) performs a single fetch: on the three-page
script of the repository's own test it consumes one response and returns only
page 1's event with cursor `token1`, whereas the drain the spec, the README
and the test describe consumes all three responses and returns all three
events with final cursor `token3`. -/
theorem getEvents_single_fetch_not_drain :
    (getEventsRun "" eventsScript3).1 =
      .ok ⟨[eventChangedTask], "token1", true, none⟩
  ∧ (getEventsRun "" eventsScript3).2.1.length = 2
  ∧ (getEventsRun "" eventsScript3).2.2 = [""]
  ∧ (drainAll "" eventsScript3).1 =
      .ok ([eventChangedTask, eventAddedTask, eventRemovedTask], "token3")
  ∧ (drainAll "" eventsScript3).2.1 = []
  ∧ (drainAll "" eventsScript3).2.2 = ["", "token1", "token2"] :=
  ⟨rfl, rfl, rfl, rfl, rfl, rfl⟩

/-- C2: `InitializeSync` succeeds with the decoded event page both on a 2xx
response and on a 412 response whose body parses as an event page (a 412 is
never surfaced as an error), while any other status of 400 or above yields an
error carrying the status code and a server-supplied message (the envelope's
first message, or else the raw body). -/
theorem initializeSync_cursor_refresh (resp : HttpResp) (page : EventsResponse)
    (hp : resp.body.json.bind decodeEventsResponse = some page) :
    (resp.status = 412 → InitializeSync (.ok resp) = .ok page)
  ∧ (resp.status < 400 → InitializeSync (.ok resp) = .ok page)
  ∧ (400 ≤ resp.status → resp.status ≠ 412 →
      ∃ m, InitializeSync (.ok resp) =
          .error ("API error (" ++ toString resp.status ++ "): " ++ m)
        ∧ ((∃ ms, resp.body.json.bind parseErrorEnvelope = some (m :: ms))
           ∨ m = resp.body.raw)) := by
  refine ⟨?_, ?_, ?_⟩
  · intro h412
    simp [InitializeSync, hp, h412]
  · intro hlt
    have h1 : ¬resp.status = 412 := by omega
    have h2 : ¬400 ≤ resp.status := by omega
    simp [InitializeSync, hp, h1, h2]
  · intro h h412
    cases hE : resp.body.json.bind parseErrorEnvelope with
    | none =>
      exact ⟨resp.body.raw, by simp [InitializeSync, hp, h, h412, hE], .inr rfl⟩
    | some l =>
      cases l with
      | nil =>
        exact ⟨resp.body.raw, by simp [InitializeSync, hp, h, h412, hE], .inr rfl⟩
      | cons m ms =>
        exact ⟨m, by simp [InitializeSync, hp, h, h412, hE], .inl ⟨ms, rfl⟩⟩

/-- C2 witness: on the concrete 412 response of the repository's test,
`InitializeSync` returns the page with the refreshed cursor. -/
theorem initializeSync_cursor_refresh_witness :
    InitializeSync (.ok resp412) = .ok page412 :=
  (initializeSync_cursor_refresh resp412 page412 rfl).1 rfl

/-- C3 counterexample: a 412 response whose body parses as an event page
nonetheless makes `GetByResource` return a transport error — the claimed
412 carve-out does not exist in the single-page fetch path. -/
theorem getByResource_412_is_transport_error :
    isErr (GetByResource (.ok resp412)) = true
  ∧ resp412.status = 412
  ∧ resp412.body.json.bind decodeEventsResponse = some page412 :=
  ⟨rfl, rfl, rfl⟩

/-- C3 amended: `GetByResource` (whose body parses as an event page) signals
a transport error exactly when the HTTP layer fails or the response status is
400 or above — including 412, which is special-cased only by
`InitializeSync`, not by the single-page fetch. -/
theorem getByResource_error_iff (r : HttpResp) (page : EventsResponse)
    (hp : r.body.json.bind decodeEventsResponse = some page) :
    (isErr (GetByResource (.ok r)) = true ↔ 400 ≤ r.status)
  ∧ ∀ e, isErr (GetByResource (.error e)) = true := by
  refine ⟨?_, fun e => rfl⟩
  by_cases h : 400 ≤ r.status
  · simp only [GetByResource, doRequest, if_pos h]
    cases hE : r.body.json.bind parseErrorEnvelope with
    | none => simp [hE, isErr, h]
    | some l => cases l <;> simp [hE, isErr, h]
  · simp [GetByResource, doRequest, if_neg h, hp, isErr, h]

/-- C3 amended witness: the error cases at concrete inputs — the 412 fixture
and a failing HTTP layer. -/
theorem getByResource_error_iff_witness :
    isErr (GetByResource (.ok resp412)) = true
  ∧ isErr (GetByResource (Except.error "connection refused")) = true :=
  ⟨((getByResource_error_iff resp412 page412 rfl).1).mpr (by decide),
   (getByResource_error_iff resp412 page412 rfl).2 "connection refused"⟩

/-- C4: in a polling cycle whose fetch fails, the error is emitted on the
errors channel, the cursor is left unchanged, and the loop continues,
fetching the next cycle with the same cursor; the run processes every
remaining scripted cycle (retry forever). -/
theorem poll_error_cycle (sync e : String) (r : Except String HttpResp)
    (rest : List (Except String HttpResp)) (h : GetByResource r = .error e) :
    pollRun sync (r :: rest) =
      ⟨(pollRun sync rest).events, e :: (pollRun sync rest).errors,
        sync :: (pollRun sync rest).cursors⟩
  ∧ (pollRun sync (r :: rest)).cursors.length = rest.length + 1
  ∧ ∀ r2 rest2, rest = r2 :: rest2 →
      (pollRun sync rest).cursors.head? = some sync := by
  refine ⟨?_, ?_, ?_⟩
  · simp [pollRun, pollCycle, h]
  · simp [pollRun, pollCycle, h, pollRun_cursors_length]
  · intro r2 rest2 hr
    subst hr
    simp [pollRun]

/-- C4 witness: a concrete failing cycle followed by a further cycle — the
error is emitted, the cursor stays `tok`, and the next fetch also uses
`tok`. -/
theorem poll_error_cycle_witness :
    pollRun "tok" [pollErrResp, pollRespA] =
      ⟨(pollRun "tok" [pollRespA]).events,
        pollErrText :: (pollRun "tok" [pollRespA]).errors,
        "tok" :: (pollRun "tok" [pollRespA]).cursors⟩
  ∧ (pollRun "tok" [pollRespA]).cursors.head? = some "tok" :=
  ⟨(poll_error_cycle "tok" pollErrText pollErrResp [pollRespA] rfl).1,
   (poll_error_cycle "tok" pollErrText pollErrResp [pollRespA] rfl).2.2
     pollRespA [] rfl⟩

/-- C5: in a successful polling cycle, the page's events are emitted in page
order before any later cycle's output, and the cursor is replaced by the
page's sync exactly when that sync is non-empty. -/
theorem poll_success_cycle (sync : String) (r : Except String HttpResp)
    (page : EventsResponse) (rest : List (Except String HttpResp))
    (h : GetByResource r = .ok page) :
    pollRun sync (r :: rest) =
      ⟨page.data ++
         (pollRun (if page.sync ≠ "" then page.sync else sync) rest).events,
        (pollRun (if page.sync ≠ "" then page.sync else sync) rest).errors,
        sync :: (pollRun (if page.sync ≠ "" then page.sync else sync) rest).cursors⟩
  ∧ (page.sync ≠ "" → pollCycle sync r = (page.sync, page.data, []))
  ∧ (page.sync = "" → pollCycle sync r = (sync, page.data, [])) := by
  refine ⟨by simp [pollRun, pollCycle, h], ?_, ?_⟩
  · intro hs
    simp [pollCycle, h, hs]
  · intro hs
    simp [pollCycle, h, hs]

/-- C5 witness: page A with events e1, e2 then page B with event e3 yield
e1, e2, e3 in that order across the two cycles, the cursor advancing to
`syncA` for the second fetch. -/
theorem poll_success_cycle_witness :
    pollRun "" [pollRespA, pollRespB] =
      ⟨[mkActionEvent "e1", mkActionEvent "e2", mkActionEvent "e3"], [],
        ["", "syncA"]⟩ := by
  rw [(poll_success_cycle "" pollRespA pollPageA [pollRespB] rfl).1]
  rfl

/-- C6 counterexample: the claim says every task and project listing returns
the fetched items; `ListByProject` with `completed = false` drops a fetched
completed task, returning the empty list for a one-page fetch of one task. -/
theorem listByProject_drops_fetched_task :
    (ListByProject "proj" false 0 [Except.ok ⟨[doneTask], none⟩]).1 = .ok []
  ∧ (⟨[doneTask], none⟩ : TasksResponse).data.length = 1 :=
  ⟨rfl, rfl⟩

/-- C6 amended: the task and project listings paginate sequentially — each
call after the first carries the previous response's `next_page.offset` as
the `offset` parameter, and the loop stops exactly at the first response with
no `next_page` or an empty offset; project listings return all fetched items
concatenated in page order, while task listings return the fetched tasks that
survive the `completed` post-filter, in page order. -/
theorem listings_paginate_sequentially (c ar : Bool) (pg wg : String)
    (lim : Int) (ts : List TasksResponse) (ps : List ProjectsResponse)
    (ht : specTasksTerminate ts = true)
    (hp : specProjectsTerminate ps = true) :
    ListByProject pg c lim (ts.map Except.ok) =
      (.ok (((specConsumedTasks ts).map TasksResponse.data).flatten.filter
              (fun t => c || !t.completed)),
       specTasksParamsTrace (listByProjectParams pg lim) ts)
  ∧ ListByWorkspace wg ar lim (ps.map Except.ok) =
      (.ok ((specConsumedProjects ps).map ProjectsResponse.data).flatten,
       specProjectsParamsTrace (listByWorkspaceParams wg ar lim) ps) :=
  ⟨tasksLoop_ok_eq c (listByProjectParams pg lim) ts ht,
   projectsLoop_ok_eq (listByWorkspaceParams wg ar lim) ps hp⟩

/-- C6 amended witness: a concrete two-page project listing returns both
pages' projects concatenated, with the second call carrying offset `poff`. -/
theorem listings_paginate_sequentially_witness :
    ListByWorkspace "ws" false 0 ([projPage1, projPage2].map Except.ok) =
      (.ok [projA, projB],
       specProjectsParamsTrace (listByWorkspaceParams "ws" false 0)
         [projPage1, projPage2]) := by
  rw [(listings_paginate_sequentially false false "proj" "ws" 0
        [taskPage1, taskPage2] [projPage1, projPage2] rfl rfl).2]
  rfl

/-- C7: the event filter keeps, in original order, exactly the events whose
evaluation succeeds with boolean true; an event whose evaluation raises is
silently excluded; on the claimed example (an event without a `change` field
and one with `change.field = "name"`, filter `event.change.field == "name"`)
exactly the second event is retained, the first raising an evaluation
error. -/
theorem filter_keeps_true_skips_errors (prog : FExpr) (evs : List Event)
    (e : Event) :
    (filterEvents prog evs).Sublist evs
  ∧ (e ∈ filterEvents prog evs ↔
       e ∈ evs ∧ evalOnEvent prog e = .ok (.bool true))
  ∧ filterEvents changeFieldFilter [evActionOnly, evWithChange] = [evWithChange]
  ∧ isErr (evalOnEvent changeFieldFilter evActionOnly) = true := by
  refine ⟨List.filter_sublist evs, ?_, rfl, rfl⟩
  simp only [filterEvents, List.mem_filter]
  apply and_congr_right
  intro _
  cases hE : evalOnEvent prog e with
  | error err => simp [hE]
  | ok v => simp [hE, beq_bool_true_iff]

/-- C8: on any status of 400 or above, the transport fails with an error
containing the status code and the envelope's first message verbatim when the
body parses as the error envelope with at least one entry, and the (trimmed)
raw body when it does not parse as that envelope. -/
theorem doRequest_error_format (resp : HttpResp) (h : 400 ≤ resp.status) :
    (∀ m ms, resp.body.json.bind parseErrorEnvelope = some (m :: ms) →
       doRequest (.ok resp) =
         .error ("API error (" ++ toString resp.status ++ "): " ++ m))
  ∧ (resp.body.json.bind parseErrorEnvelope = none →
       doRequest (.ok resp) =
         .error ("API error (" ++ toString resp.status ++ "): "
                   ++ trimSpace resp.body.raw)) := by
  constructor
  · intro m ms hE
    simp [doRequest, h, hE]
  · intro hE
    simp [doRequest, h, hE]

/-- C8 witness: the concrete 400 envelope response of the repository's test
produces exactly `API error (400): Bad request`, and a 500 with a non-JSON
body falls back to the (trimmed) raw body. -/
theorem doRequest_error_format_witness :
    doRequest (.ok resp400) = .error "API error (400): Bad request"
  ∧ doRequest (.ok respPlain500) = .error "API error (500): server exploded" :=
  ⟨((doRequest_error_format resp400 (by decide)).1 "Bad request" [] rfl).trans
     (by rfl),
   ((doRequest_error_format respPlain500 (by decide)).2 rfl).trans (by rfl)⟩

/-- C9: the task listings apply a client-side post-filter: with
`completed = false` the result is exactly the fetched tasks whose `Completed`
field is false, in fetch order; with `completed = true` every fetched task is
included — for each of `ListByProject`, `ListByAssignee` and
`ListBySection`. -/
theorem tasks_completed_postfilter (pg ag wg sg : String) (lim : Int)
    (ts : List TasksResponse) (h : specTasksTerminate ts = true) :
    ((ListByProject pg false lim (ts.map Except.ok)).1 =
        .ok (((specConsumedTasks ts).map TasksResponse.data).flatten.filter
               (fun t => !t.completed))
      ∧ (ListByProject pg true lim (ts.map Except.ok)).1 =
          .ok ((specConsumedTasks ts).map TasksResponse.data).flatten)
  ∧ ((ListByAssignee ag wg false lim (ts.map Except.ok)).1 =
        .ok (((specConsumedTasks ts).map TasksResponse.data).flatten.filter
               (fun t => !t.completed))
      ∧ (ListByAssignee ag wg true lim (ts.map Except.ok)).1 =
          .ok ((specConsumedTasks ts).map TasksResponse.data).flatten)
  ∧ ((ListBySection sg false lim (ts.map Except.ok)).1 =
        .ok (((specConsumedTasks ts).map TasksResponse.data).flatten.filter
               (fun t => !t.completed))
      ∧ (ListBySection sg true lim (ts.map Except.ok)).1 =
          .ok ((specConsumedTasks ts).map TasksResponse.data).flatten) := by
  have hfalse : ∀ ps2 : List (String × String),
      (tasksLoop false ps2 (ts.map Except.ok)).1 =
        .ok (((specConsumedTasks ts).map TasksResponse.data).flatten.filter
               (fun t => !t.completed)) := by
    intro ps2
    rw [tasksLoop_ok_eq false ps2 ts h]
    simp only [Bool.false_or]
  have htrue : ∀ ps2 : List (String × String),
      (tasksLoop true ps2 (ts.map Except.ok)).1 =
        .ok ((specConsumedTasks ts).map TasksResponse.data).flatten := by
    intro ps2
    rw [tasksLoop_ok_eq true ps2 ts h]
    simp only [Bool.true_or, List.filter_true]
  exact ⟨⟨hfalse _, htrue _⟩, ⟨hfalse _, htrue _⟩, ⟨hfalse _, htrue _⟩⟩

/-- C9 witness: on a concrete two-page fetch with one completed and one open
task, `completed = false` returns only the open task and `completed = true`
returns both. -/
theorem tasks_completed_postfilter_witness :
    (ListByProject "proj" false 5 ([taskPage1, taskPage2].map Except.ok)).1 =
      .ok [openTask]
  ∧ (ListByProject "proj" true 5 ([taskPage1, taskPage2].map Except.ok)).1 =
      .ok [doneTask, openTask] :=
  ⟨((tasks_completed_postfilter "proj" "a" "w" "s" 5 [taskPage1, taskPage2]
       rfl).1.1).trans (by rfl),
   ((tasks_completed_postfilter "proj" "a" "w" "s" 5 [taskPage1, taskPage2]
       rfl).1.2).trans (by rfl)⟩

/-- C10: a positive limit is sent as the `limit` query parameter of each
listing, but the pagination loops' results do not depend on it — the loop
runs until the server stops returning an offset, so the returned items can
exceed the limit, as the concrete two-page run with limit 1 and two tasks
shows. -/
theorem limit_only_page_size (pg ag wg sg : String) (ar c : Bool) (lim : Int)
    (h : 0 < lim) :
    ("limit", toString lim) ∈ listByProjectParams pg lim
  ∧ ("limit", toString lim) ∈ listByAssigneeParams ag wg lim
  ∧ ("limit", toString lim) ∈ listBySectionParams sg lim
  ∧ ("limit", toString lim) ∈ listByWorkspaceParams wg ar lim
  ∧ (∀ (lim2 : Int) (s : List (Except String TasksResponse)),
       (ListByProject pg c lim s).1 = (ListByProject pg c lim2 s).1)
  ∧ (∀ (lim2 : Int) (s : List (Except String ProjectsResponse)),
       (ListByWorkspace wg ar lim s).1 = (ListByWorkspace wg ar lim2 s).1)
  ∧ (ListByProject pg true 1 ([taskPage1, taskPage2].map Except.ok)).1 =
      .ok [doneTask, openTask]
  ∧ 1 < [doneTask, openTask].length := by
  refine ⟨?_, ?_, ?_, ?_, ?_, ?_, ?_, by decide⟩
  · simp [listByProjectParams, h]
  · simp [listByAssigneeParams, h]
  · simp [listBySectionParams, h]
  · simp [listByWorkspaceParams, h]
  · intro lim2 s
    exact tasksLoop_fst_params c _ _ s
  · intro lim2 s
    exact projectsLoop_fst_params _ _ s
  · show (tasksLoop true (listByProjectParams pg 1)
           ([taskPage1, taskPage2].map Except.ok)).1 = .ok [doneTask, openTask]
    rw [tasksLoop_ok_eq true (listByProjectParams pg 1) [taskPage1, taskPage2]
          rfl]
    rfl

/-- C10 witness: with limit 1, the `limit` parameter is sent and the run
still returns two tasks. -/
theorem limit_only_page_size_witness :
    ("limit", "1") ∈ listByProjectParams "proj" 1
  ∧ (ListByProject "proj" true 1 ([taskPage1, taskPage2].map Except.ok)).1 =
      .ok [doneTask, openTask] :=
  ⟨(limit_only_page_size "proj" "a" "w" "s" false true 1 (by decide)).1,
   (limit_only_page_size "proj" "a" "w" "s" false true 1
      (by decide)).2.2.2.2.2.2.1⟩
